import Mathlib

/-!
Verification development for the Arduino DUE digital color organ sketch
(`ColorOrgan_2017_v1_0_2.ino`).

The sketch's float arithmetic is modelled exactly: rational-valued code
(comparisons, products, quotients, the remote-key state machine, the AGC
sample loop, LED quantization) is embedded over `ℚ`, while the parts that
use transcendental functions (`log10`, `pow`) are embedded over `ℝ`.
Decimal literals such as `16.6`, `0.98` or `0.0039` denote the same exact
decimal fractions the source text spells.
-/

/-! ### makeValid (sketch lines 850-858)

`float makeValid(float value)`: clamp a channel value into `[0, MAX_ANALOG]`
with `MAX_ANALOG = 4095`.  The source applies the two `if` statements in
sequence, which the nested `if` below reproduces. -/

def makeValid (value : ℚ) : ℚ :=
  let v1 := if value > 4095 then 4095 else value
  if v1 < 0 then 0 else v1

/-! ### MakeHueValid (sketch lines 787-795)

`float MakeHueValid(float value)`: `value > 1.0` is reset to `0.0`, then
`value < 0` is reset to `1`. -/

def MakeHueValid (value : ℚ) : ℚ :=
  let v1 := if value > 1 then 0 else value
  if v1 < 0 then 1 else v1

/-! ### Hue (sketch lines 801-842)

Three piecewise-linear ramps produce RGB from a hue in `[0,1]`;
`slope = MAX_ANALOG / 0.33`, and each component is passed through
`makeValid` at the end.  The source first clamps the hue argument itself. -/

def Hue (hue0 : ℚ) : ℚ × ℚ × ℚ :=
  let h1 := if hue0 < 0 then 0 else hue0
  let h := if h1 > 1 then 1 else h1
  let slope : ℚ := 4095 / 0.33
  let red := if 0 ≤ h ∧ h ≤ 0.33 then slope * (h - 0)
    else if 0.33 < h ∧ h ≤ 0.66 then 4095 - slope * (h - 0.33)
    else 0
  let green := if 0.33 ≤ h ∧ h ≤ 0.66 then slope * (h - 0.33)
    else if 0.66 < h ∧ h ≤ 1 then 4095 - slope * (h - 0.66)
    else 0
  let blue := if 0.66 ≤ h ∧ h ≤ 1 then slope * (h - 0.66)
    else if 0 ≤ h ∧ h ≤ 0.33 then 4095 - slope * (h - 0)
    else 0
  (makeValid red, makeValid green, makeValid blue)

/-! ### Saturation / brightness application

Every effect renderer (`CreateSolidColor` lines 700-716, `CreateRainbow`
lines 669-696, `CreateRandom` lines 720-736) applies the same three lines to
a pure hue's RGB: blend toward white by `(1-saturation)*MAX_ANALOG +
saturation*c`, scale by `brightness`, and clamp with `makeValid`.  The
repeated inline code is shared here as one helper. -/

def satBrightPixel (saturation brightness : ℚ) (rgb : ℚ × ℚ × ℚ) : ℚ × ℚ × ℚ :=
  (makeValid (((1 - saturation) * 4095 + saturation * rgb.1) * brightness),
   makeValid (((1 - saturation) * 4095 + saturation * rgb.2.1) * brightness),
   makeValid (((1 - saturation) * 4095 + saturation * rgb.2.2) * brightness))

/-- `TOTAL_LEDS = NUMBER_STRINGS * LEDS_PER_STRING = 4 * 50` (lines 83-85). -/
def TOTAL_LEDS : ℕ := 4 * 50

/-- `CreateSolidColor` (lines 700-716): one pixel value written to every
buffer slot. -/
def createSolidColor (hue saturation brightness : ℚ) : List (ℚ × ℚ × ℚ) :=
  List.replicate TOTAL_LEDS (satBrightPixel saturation brightness (Hue hue))

/-- `fastSteps = steps * 0.33` truncated to `int` (line 674); with
`steps = TOTAL_LEDS = 200` this is 66. -/
def rainbowFastSteps : ℤ := Int.floor ((200 : ℚ) * 0.33)

/-- `slowSteps = steps - fastSteps` (line 675). -/
def rainbowSlowSteps : ℤ := 200 - rainbowFastSteps

/-- `stepSize = 1.0 / (float(slowSteps / ratio) + float(fastSteps))` with
`ratio = 3` and C integer division `slowSteps / 3` (lines 676-677). -/
def rainbowStepSize : ℚ := 1 / (((rainbowSlowSteps / 3 : ℤ) : ℚ) + (rainbowFastSteps : ℚ))

/-- The per-LED body of `CreateRainbow`'s `for` loop (lines 678-695): the hue
is stepped (third-size steps in the mid-range `0.333 < hue < 0.666`), wrapped
with `MakeHueValid`, and the resulting pixel appended.  The `ℕ` argument is
the number of remaining loop iterations (200 at the top call). -/
def createRainbowAux (saturation brightness : ℚ) : ℕ → ℚ → List (ℚ × ℚ × ℚ)
  | 0, _ => []
  | n + 1, hue =>
    let h' := if 0.333 < hue ∧ hue < 0.666 then MakeHueValid (hue + rainbowStepSize / 3)
      else MakeHueValid (hue + rainbowStepSize)
    satBrightPixel saturation brightness (Hue h') :: createRainbowAux saturation brightness n h'

/-- `CreateRainbow` (lines 669-696). -/
def createRainbow (hue saturation brightness : ℚ) : List (ℚ × ℚ × ℚ) :=
  createRainbowAux saturation brightness TOTAL_LEDS hue

/-- `CreateRandom` (lines 720-736): each LED gets `Hue(random(0,10000)/10000.0)`
with saturation and brightness applied; the random draws are passed in as a
list. -/
def createRandom (saturation brightness : ℚ) (draws : List ℚ) : List (ℚ × ℚ × ℚ) :=
  draws.map fun r => satBrightPixel saturation brightness (Hue (r / 10000))

/-! ### ShowBuffer (sketch lines 748-758)

Each float component in `[0, MAX_ANALOG]` is quantized with
`byte(round(c / 16.6))`; since `round(4095/16.6) = 247 < 256` the `byte`
cast is the identity on valid buffers and is modelled as such.  The
anti-flicker rule bumps the blue byte when all three are equal, nonzero and
below 23. -/

def showBufferPixel (p : ℚ × ℚ × ℚ) : ℤ × ℤ × ℤ :=
  let r := round (p.1 / 16.6)
  let g := round (p.2.1 / 16.6)
  let b := round (p.2.2 / 16.6)
  if r = g ∧ g = b ∧ b < 23 ∧ b ≠ 0 then (r, g, b + 1) else (r, g, b)

def showBuffer (buf : List (ℚ × ℚ × ℚ)) : List (ℤ × ℤ × ℤ) :=
  buf.map showBufferPixel

/-- The frame written by the power-OFF handler (lines 394-399): every LED's
three bytes set to zero. -/
def blankFrame : List (ℤ × ℤ × ℤ) :=
  List.replicate TOTAL_LEDS (0, 0, 0)

/-! ### Mode and key state machine (sketch `loop()`, lines 366-659) -/

/-- `enum currentState` (lines 226-232). -/
inductive Mode where
  | ColorOrgan
  | Rainbow
  | SolidColor
  | RandomColors
  | QuietColor
deriving DecidableEq, Repr

/-- The logical remote keys dispatched by `loop()`'s `switch` (NEC codes in
comments). -/
inductive Key where
  | power        -- 0x58a7
  | colorOrgan   -- 0x08f7
  | quietColor   -- 0x8877
  | solidColor   -- 0x48b7
  | rainbow      -- 0x28d7
  | trickle      -- 0xa857
  | randomColors -- 0x6897
  | sparkleOn    -- 0x18e7
  | sparkleOff   -- 0x9867
  | hueUp        -- 0x609f
  | hueDown      -- 0x20df
  | desaturate   -- 0xa05f
  | resaturate   -- 0xb04f
  | brighten     -- 0x708f
  | dim          -- 0x30cf
deriving DecidableEq, Repr

/-- The sketch state a remote key event can read or write: the globals of
lines 179-191, the mode of line 224, the animation-effect `buffer[]`, the
LED frame last transmitted by `FastLED.show()`, and the stream of pending
`random()` draws.  `blinked` records whether `Blink()` ran during the event
being modelled (it is cleared at the start of each event). -/
structure SysState where
  onOff : Bool
  mode : Mode
  hue : ℚ
  saturation : ℚ
  brightness : ℚ
  slowAnimationTime : ℤ
  sparkle : Bool
  sparklesPerMinute : ℤ
  quietHue : ℚ
  quietSaturation : ℚ
  quietBrightness : ℚ
  quietRed : ℚ
  quietGreen : ℚ
  quietBlue : ℚ
  buffer : List (ℚ × ℚ × ℚ)
  frame : List (ℤ × ℤ × ℤ)
  blinked : Bool
  rand : List ℚ
deriving DecidableEq, Repr

/-- `UpdateQuietColor` (lines 879-890): copy the displayed HSB to the quiet
snapshot and derive the quiet RGB thresholds through `Hue`, the saturation
blend, the brightness scale and `makeValid`. -/
def UpdateQuietColor (s : SysState) : SysState :=
  let q := Hue s.hue
  { s with
    quietHue := s.hue
    quietSaturation := s.saturation
    quietBrightness := s.brightness
    quietRed := makeValid (((1 - s.saturation) * 4095 + s.saturation * q.1) * s.brightness)
    quietGreen := makeValid (((1 - s.saturation) * 4095 + s.saturation * q.2.1) * s.brightness)
    quietBlue := makeValid (((1 - s.saturation) * 4095 + s.saturation * q.2.2) * s.brightness) }

/-- `Blink()` (lines 863-872): blank 100 ms, then `ShowBuffer()` restores the
buffer, so the lasting frame is the quantized buffer; the flag records that
the feedback blink happened. -/
def BlinkS (s : SysState) : SysState :=
  { s with blinked := true, frame := showBuffer s.buffer }

/-- The `switch (keyCode)` handlers (lines 403-595), for keys other than
power.  Constants: `MIN_ANIMATION_TIME = 16`, `MAX_ANIMATION_TIME = 4096`,
`MIN_SPARKLE_RATE = 64`, `MAX_SPARKLE_RATE = 4096`, `HUE_STEPS = 64`,
`SATURATION_LIMIT = 0.45`, `BRIGHT_LSB = 0.0039`. -/
def dispatch (k : Key) (s : SysState) : SysState :=
  match k with
  | Key.power => s       -- 0x58a7 is handled before the switch; never dispatched here
  | Key.colorOrgan => { s with mode := Mode.ColorOrgan }
  | Key.quietColor =>
    { s with mode := Mode.QuietColor, slowAnimationTime := 0, sparkle := false,
             saturation := s.quietSaturation, hue := s.quietHue,
             brightness := s.quietBrightness }
  | Key.solidColor =>
    if s.mode ≠ Mode.SolidColor then
      { s with mode := Mode.SolidColor, slowAnimationTime := 0,
               saturation := 1, hue := 0, brightness := 1 }
    else if s.slowAnimationTime = 0 then
      { s with slowAnimationTime := 16 }
    else
      let t := s.slowAnimationTime * 2
      if t > 4096 then BlinkS { s with slowAnimationTime := 4096 }
      else { s with slowAnimationTime := t }
  | Key.rainbow =>
    if s.mode ≠ Mode.Rainbow then
      { s with mode := Mode.Rainbow, slowAnimationTime := 0,
               saturation := 1, hue := 0, brightness := 1 }
    else if s.slowAnimationTime = 0 then
      { s with slowAnimationTime := 16 }
    else
      let t := s.slowAnimationTime * 2
      if t > 4096 then BlinkS { s with slowAnimationTime := 4096 }
      else { s with slowAnimationTime := t }
  | Key.trickle =>
    { s with mode := Mode.Rainbow, saturation := 1, brightness := 0.25,
             slowAnimationTime := 16 + 4096 / 2, sparkle := true }
  | Key.randomColors =>
    if s.mode ≠ Mode.RandomColors then
      { s with mode := Mode.RandomColors, slowAnimationTime := 0,
               saturation := 1, brightness := 1 }
    else if s.slowAnimationTime = 0 then
      { s with slowAnimationTime := 16 * 8 }
    else
      let t := s.slowAnimationTime * 2
      if t > 4096 then BlinkS { s with slowAnimationTime := 4096 }
      else { s with slowAnimationTime := t }
  | Key.sparkleOn =>
    if s.sparkle = false then
      { s with sparkle := true, sparklesPerMinute := 4096 }
    else
      let r := s.sparklesPerMinute / 2
      if r < 64 then { s with sparklesPerMinute := 64 }
      else { s with sparklesPerMinute := r }
  | Key.sparkleOff => { s with sparkle := false }
  | Key.hueUp =>
    let h' := if 0.33 < s.hue ∧ s.hue < 0.66 then MakeHueValid (s.hue + 1 / 64 / 3)
      else MakeHueValid (s.hue + 1 / 64)
    let s' := { s with hue := h',
                       buffer := createSolidColor h' s.saturation s.brightness }
    if s'.mode = Mode.QuietColor then UpdateQuietColor s' else s'
  | Key.hueDown =>
    let h' := if 0.33 < s.hue ∧ s.hue < 0.66 then MakeHueValid (s.hue - 1 / 64 / 3)
      else MakeHueValid (s.hue - 1 / 64)
    let s' := { s with hue := h',
                       buffer := createSolidColor h' s.saturation s.brightness }
    if s'.mode = Mode.QuietColor then UpdateQuietColor s' else s'
  | Key.desaturate =>
    let t := s.saturation * 0.98
    let s' := if t < 0.45 then BlinkS { s with saturation := 0 }
      else { s with saturation := t }
    if s'.mode = Mode.QuietColor then UpdateQuietColor s' else s'
  | Key.resaturate =>
    let t := if s.saturation = 0 then (0.45 : ℚ)
      else if s.saturation / 0.98 - s.saturation < 0.0039 then s.saturation + 0.0039
      else s.saturation / 0.98
    if t > 1 - 0.0039 then BlinkS { s with saturation := 1 }
    else { s with saturation := t }
  | Key.brighten =>
    let t := if s.brightness = 0 then (0.0039 : ℚ)
      else if s.brightness / 0.92 - s.brightness < 0.0039 then s.brightness + 0.0039
      else s.brightness / 0.92
    let s' := if t > 1 - 0.0039 then BlinkS { s with brightness := 1 }
      else { s with brightness := t }
    if s'.mode = Mode.QuietColor then UpdateQuietColor s' else s'
  | Key.dim =>
    let t := if s.brightness * (1 - 0.9) > 0.0039 then s.brightness * 0.9
      else if s.brightness - 0.0039 > 0 then s.brightness - 0.0039
      else 0
    let s' := { s with brightness := t }
    if s'.mode = Mode.QuietColor then UpdateQuietColor s' else s'

/-- The display refresh after a handled key (lines 600-611): re-render the
buffer for the current non-organ mode and transmit it with `ShowBuffer()`.
`CreateRandom` consumes one `random()` draw per LED. -/
def refresh (s : SysState) : SysState :=
  match s.mode with
  | Mode.SolidColor =>
    let buf := createSolidColor s.hue s.saturation s.brightness
    { s with buffer := buf, frame := showBuffer buf }
  | Mode.QuietColor =>
    let buf := createSolidColor s.hue s.saturation s.brightness
    { s with buffer := buf, frame := showBuffer buf }
  | Mode.RandomColors =>
    let buf := createRandom s.saturation s.brightness (s.rand.take TOTAL_LEDS)
    { s with buffer := buf, frame := showBuffer buf, rand := s.rand.drop TOTAL_LEDS }
  | Mode.Rainbow =>
    let buf := createRainbow s.hue s.saturation s.brightness
    { s with buffer := buf, frame := showBuffer buf }
  | Mode.ColorOrgan => s

/-- One decoded remote key event (lines 391-612): power is always handled
(toggle, and blank the LEDs when turning OFF); every other key, the `switch`
and the refresh run only when the unit is ON. -/
def keyPress (k : Key) (s0 : SysState) : SysState :=
  let s1 := { s0 with blinked := false }
  let s2 :=
    if k = Key.power then
      if s1.onOff then { s1 with onOff := false, frame := blankFrame }
      else { s1 with onOff := true }
    else s1
  if s2.onOff then refresh (if k = Key.power then s2 else dispatch k s2) else s2

/-- The tail of `loop()` after key handling (lines 618-658): everything is
gated on `onOff`.  In `ColorOrgan` mode `ShowColorOrgan()` runs and writes
the organ's frame (computed by the `ℝ`-valued DSP model and passed in as
`organFrame`); otherwise the fast sparkle timer and the slow hue animations
run.  `Sparkle()`'s lasting effect is the consumption of its `random()`
draws — it restores the flashed LED (lines 764-783). -/
def loopTail (fastExpired slowExpired : Bool) (organFrame : List (ℤ × ℤ × ℤ))
    (s : SysState) : SysState :=
  if s.onOff then
    if s.mode = Mode.ColorOrgan then { s with frame := organFrame }
    else
      let s1 := if fastExpired ∧ s.sparkle then { s with rand := s.rand.drop 2 } else s
      if s1.slowAnimationTime > 0 ∧ slowExpired then
        match s1.mode with
        | Mode.SolidColor =>
          let h' := if 0.33 < s1.hue ∧ s1.hue < 0.66 then MakeHueValid (s1.hue + 1 / 64 / 3)
            else MakeHueValid (s1.hue + 1 / 64)
          let buf := createSolidColor h' s1.saturation s1.brightness
          { s1 with hue := h', buffer := buf, frame := showBuffer buf }
        | Mode.Rainbow =>
          let h' := MakeHueValid (s1.hue + 1 / 64)
          let buf := createRainbow h' s1.saturation s1.brightness
          { s1 with hue := h', buffer := buf, frame := showBuffer buf }
        | Mode.RandomColors =>
          let buf := createRandom s1.saturation s1.brightness (s1.rand.take TOTAL_LEDS)
          { s1 with buffer := buf, frame := showBuffer buf, rand := s1.rand.drop TOTAL_LEDS }
        | _ => s1
      else s1
  else s

/-- The state components claim C8 tracks across an OFF/ON cycle: mode, HSB,
animation period, sparkle settings, and the quiet-color snapshot (HSB and
derived RGB). -/
def modeVars (s : SysState) :
    Mode × ℚ × ℚ × ℚ × ℤ × Bool × ℤ × ℚ × ℚ × ℚ × ℚ × ℚ × ℚ :=
  (s.mode, s.hue, s.saturation, s.brightness, s.slowAnimationTime,
   s.sparkle, s.sparklesPerMinute,
   s.quietHue, s.quietSaturation, s.quietBrightness,
   s.quietRed, s.quietGreen, s.quietBlue)

/-! ### AGC sample step (sketch lines 952-962)

State carried across samples: `sampleMax` (running peak of the de-biased
raw sample) and `inputGain` (the AGC gain).  On each raw sample the peak is
updated, the gain corrected downward if `inputGain * sampleMax` would pass
`MAX_ANALOG / 2`, and `audioSample = rawSample * inputGain` computed with
the possibly-corrected gain. -/

structure AGCState where
  sampleMax : ℚ
  inputGain : ℚ
deriving DecidableEq, Repr

def agcSampleStep (rawSample : ℚ) (s : AGCState) : AGCState :=
  if |rawSample| > s.sampleMax then
    let m := |rawSample|
    if s.inputGain * m > 4095 / 2 then ⟨m, 4095 / 2 / m⟩
    else ⟨m, s.inputGain⟩
  else s

/-- `audioSample = rawSample * inputGain` (line 962), with the gain as left
by this sample's AGC update. -/
def audioSampleOf (rawSample : ℚ) (s : AGCState) : ℚ :=
  rawSample * (agcSampleStep rawSample s).inputGain

/-- The AGC states after each sample of a block. -/
def agcBlockStates : List ℚ → AGCState → List AGCState
  | [], _ => []
  | r :: rs, s => agcSampleStep r s :: agcBlockStates rs (agcSampleStep r s)

/-- The `audioSample` values produced over a block. -/
def agcBlockAudio : List ℚ → AGCState → List ℚ
  | [], _ => []
  | r :: rs, s => audioSampleOf r s :: agcBlockAudio rs (agcSampleStep r s)

/-! ### Sampling loop indexing (sketch lines 933-963, 173)

`sampleCount = 0; while (sampleCount++ < SAMPLE_SIZE) { ...
hanningWindow[sampleCount - 1] ... }` with `SAMPLE_SIZE = 320`.  At a loop
test with counter value `c < 320` the post-increment sets `sampleCount`
to `c + 1` and the body reads index `sampleCount - 1 = c`.  `organIndices c`
is the list of window indices read by the remaining iterations. -/

def organIndices (c : ℕ) : List ℕ :=
  if h : c < 320 then c :: organIndices (c + 1) else []
  termination_by 320 - c
  decreasing_by omega

/-! ### AGC between-block recovery (sketch lines 1055-1057)

`AGCboost = pow(10., AGC_BOOST / 20.)` with `AGC_BOOST = 30` (lines 157,
295); `AGCalpha = UPDATE_PERIOD * 0.001 / AGC_TAU = 32 * 0.001 / 1.0`
(lines 94, 158, 298).  When the gain is below the boost ceiling it takes a
single exponential step toward it after each block. -/

section
open Classical

noncomputable def AGCboost : ℝ := (10 : ℝ) ^ ((30 : ℝ) / 20)

noncomputable def AGCalpha : ℝ := 32 * 0.001 / 1.0

noncomputable def agcRecover (inputGain : ℝ) : ℝ :=
  if inputGain < AGCboost then AGCboost * AGCalpha + (1 - AGCalpha) * inputGain
  else inputGain

/-! ### Brightness mapping and quiet-color substitution (sketch lines 1070-1109)

The color-organ display step multiplies each channel peak by its gain
(`RED_GAIN = 5`, `GREEN_GAIN = 7`, `BLUE_GAIN = 5`), clamps with
`makeValid`, and converts to 8 bits with
`255 - 255*20*log10(v/MAX_ANALOG)/(-DYNAMIC_RANGE)` (`DYNAMIC_RANGE = 25`).
A channel whose result is negative is replaced with the quantized quiet
color; finally the anti-flicker rule bumps an equal nonzero sub-23 blue.

Floats are modelled as reals.  `makeValidR` is the real-valued reading of
the same source `makeValid` used above over `ℚ`. -/

noncomputable def makeValidR (value : ℝ) : ℝ :=
  let v1 := if value > 4095 then 4095 else value
  if v1 < 0 then 0 else v1

/-- `255. - 255. * 20 * log10(v / MAX_ANALOG) / (-DYNAMIC_RANGE)`
(lines 1095-1097). -/
noncomputable def dbMap (v : ℝ) : ℝ :=
  255 - 255 * 20 * Real.logb 10 (v / 4095) / (-25)

/-- `byte(round(quietComponent / 16.6))` (lines 1100, 1103, 1106); the
`byte` cast is the identity because the quiet components are `makeValid`
outputs, so the rounded value is in `[0, 247]`. -/
noncomputable def quantize8 (q : ℝ) : ℤ :=
  round (q / 16.6)

/-- One channel of the display step: the dB conversion of the gained,
clamped peak `b`, with the below-zero quiet-color substitution.  IEEE
`log10(0)` is `-inf`, so a zero `b` makes the computed brightness `-inf < 0`
and the substitution branch is taken; Mathlib's `Real.logb 10 0 = 0` would
hide that, so the `b = 0` case is part of the branch condition. -/
noncomputable def organChannel (b quiet : ℝ) : ℝ :=
  if b = 0 ∨ dbMap b < 0 then ((quantize8 quiet : ℤ) : ℝ) else dbMap b

/-- The full triple display step of `ShowColorOrgan` (lines 1070-1109):
per-channel gain, clamp, dB map, quiet substitution, then the anti-flicker
blue bump `if (red == green && green == blue && blue < 23 && blue != 0)
blue++`. -/
noncomputable def organRender (peakRed peakGreen peakBlue quietR quietG quietB : ℝ) :
    ℝ × ℝ × ℝ :=
  let red := organChannel (makeValidR (5 * peakRed)) quietR
  let green := organChannel (makeValidR (7 * peakGreen)) quietG
  let blue := organChannel (makeValidR (5 * peakBlue)) quietB
  if red = green ∧ green = blue ∧ blue < 23 ∧ blue ≠ 0 then (red, green, blue + 1)
  else (red, green, blue)

end

/-- The AGC sampling invariant: nonnegative running peak and gain, and the
gain-times-peak product held at or below `MAX_ANALOG / 2`. -/
def agcInv (s : AGCState) : Prop :=
  0 ≤ s.sampleMax ∧ 0 ≤ s.inputGain ∧ s.inputGain * s.sampleMax ≤ 4095 / 2

/-- A reference system state mirroring the situation right after `setup()`
(lines 352-362): ON, ColorOrgan mode, fully saturated full-brightness blue,
no animation, sparkle off at the maximum rate, quiet color all dark. -/
def baseState : SysState :=
  { onOff := true, mode := Mode.ColorOrgan, hue := 0, saturation := 1, brightness := 1,
    slowAnimationTime := 0, sparkle := false, sparklesPerMinute := 4096,
    quietHue := 0, quietSaturation := 0, quietBrightness := 0,
    quietRed := 0, quietGreen := 0, quietBlue := 0,
    buffer := [], frame := [], blinked := false, rand := [] }

/-- A state in SolidColor mode with the animation running at a 32 ms period. -/
def c6State : SysState :=
  { baseState with mode := Mode.SolidColor, slowAnimationTime := 32 }

/-- A state in SolidColor mode with the animation period at the
`MAX_ANIMATION_TIME` cap. -/
def capState : SysState :=
  { baseState with mode := Mode.SolidColor, slowAnimationTime := 4096 }

/-- A state in QuietColor mode with saturation fully white (0). -/
def c7State : SysState :=
  { baseState with mode := Mode.QuietColor, saturation := 0 }

/-! ## Shared lemmas -/

/-- Evaluate `round` at a value squeezed between `n - 1/2` and `n + 1/2`. -/
lemma round_eq_of {α : Type} [LinearOrderedField α] [FloorRing α] {x : α} {n : ℤ}
    (h1 : (n : α) ≤ x + 1 / 2) (h2 : x + 1 / 2 < n + 1) : round x = n := by
  rw [round_eq, Int.floor_eq_iff]
  exact ⟨h1, h2⟩

lemma round_mono' {α : Type} [LinearOrderedField α] [FloorRing α] {a b : α} (h : a ≤ b) :
    round a ≤ round b := by
  rw [round_eq, round_eq]
  exact Int.floor_mono (by linarith)

lemma agcSampleStep_inv (raw : ℚ) (s : AGCState) (h : agcInv s) :
    agcInv (agcSampleStep raw s) := by
  obtain ⟨hm, hg, hp⟩ := h
  unfold agcSampleStep
  by_cases h1 : |raw| > s.sampleMax
  · have hr : 0 < |raw| := lt_of_le_of_lt hm h1
    by_cases h2 : s.inputGain * |raw| > 4095 / 2
    · simp only [h1, if_pos, h2]
      refine ⟨abs_nonneg raw, ?_, ?_⟩
      · positivity
      · rw [div_mul_cancel₀ _ (ne_of_gt hr)]
    · simp only [h1, if_pos, h2, if_neg, not_false_iff]
      exact ⟨abs_nonneg raw, hg, not_lt.mp h2⟩
  · simp only [h1, if_neg, not_false_iff]
    exact ⟨hm, hg, hp⟩

lemma audioSampleOf_le (raw : ℚ) (s : AGCState) (h : agcInv s) :
    |audioSampleOf raw s| ≤ 4095 / 2 := by
  obtain ⟨hm, hg, hp⟩ := h
  have hinv := agcSampleStep_inv raw s ⟨hm, hg, hp⟩
  unfold audioSampleOf agcSampleStep at hinv ⊢
  by_cases h1 : |raw| > s.sampleMax
  · have hr : 0 < |raw| := lt_of_le_of_lt hm h1
    by_cases h2 : s.inputGain * |raw| > 4095 / 2
    · simp only [h1, if_pos, h2] at hinv ⊢
      rw [abs_mul, abs_of_nonneg hinv.2.1, mul_comm]
      calc 4095 / 2 / |raw| * |raw| = 4095 / 2 := div_mul_cancel₀ _ (ne_of_gt hr)
        _ ≤ 4095 / 2 := le_refl _
    · simp only [h1, if_pos, h2, if_neg, not_false_iff] at hinv ⊢
      rw [abs_mul, mul_comm, abs_of_nonneg hg]
      exact le_of_not_lt h2
  · simp only [h1, if_neg, not_false_iff] at hinv ⊢
    rw [abs_mul]
    calc |raw| * |s.inputGain| = |s.inputGain| * |raw| := mul_comm _ _
      _ ≤ s.inputGain * s.sampleMax := by
          rw [abs_of_nonneg hg]
          exact mul_le_mul_of_nonneg_left (le_of_not_lt h1) hg
      _ ≤ 4095 / 2 := hp

lemma agcBlockStates_inv (raws : List ℚ) (s : AGCState) (h : agcInv s) :
    ∀ s' ∈ agcBlockStates raws s, agcInv s' := by
  induction raws generalizing s with
  | nil => intro s' hs'; simp [agcBlockStates] at hs'
  | cons r rs ih =>
    intro s' hs'
    simp only [agcBlockStates, List.mem_cons] at hs'
    rcases hs' with rfl | hs'
    · exact agcSampleStep_inv r s h
    · exact ih (agcSampleStep r s) (agcSampleStep_inv r s h) s' hs'

lemma agcBlockAudio_le (raws : List ℚ) (s : AGCState) (h : agcInv s) :
    ∀ a ∈ agcBlockAudio raws s, |a| ≤ 4095 / 2 := by
  induction raws generalizing s with
  | nil => intro a ha; simp [agcBlockAudio] at ha
  | cons r rs ih =>
    intro a ha
    simp only [agcBlockAudio, List.mem_cons] at ha
    rcases ha with rfl | ha
    · exact audioSampleOf_le r s h
    · exact ih (agcSampleStep r s) (agcSampleStep_inv r s h) a ha

lemma agcSampleStep_gain_le (raw : ℚ) (s : AGCState) (hm : 0 ≤ s.sampleMax) :
    (agcSampleStep raw s).inputGain ≤ s.inputGain := by
  unfold agcSampleStep
  by_cases h1 : |raw| > s.sampleMax
  · have hr : 0 < |raw| := lt_of_le_of_lt hm h1
    by_cases h2 : s.inputGain * |raw| > 4095 / 2
    · simp only [h1, if_pos, h2]
      exact le_of_lt ((div_lt_iff₀ hr).mpr (by linarith [h2]))
    · simp only [h1, if_pos, h2, if_neg, not_false_iff]
      exact le_refl _
  · simp only [h1, if_neg, not_false_iff]
    exact le_refl _

lemma agcSampleStep_max_nonneg (raw : ℚ) (s : AGCState) (hm : 0 ≤ s.sampleMax) :
    0 ≤ (agcSampleStep raw s).sampleMax := by
  unfold agcSampleStep
  by_cases h1 : |raw| > s.sampleMax
  · by_cases h2 : s.inputGain * |raw| > 4095 / 2 <;>
      simp only [h1, if_pos, h2, if_neg, not_false_iff] <;> exact abs_nonneg raw
  · simp only [h1, if_neg, not_false_iff]
    exact hm

lemma agcBlockStates_gain_le (raws : List ℚ) :
    ∀ s : AGCState, 0 ≤ s.sampleMax →
      ∀ s' ∈ agcBlockStates raws s, s'.inputGain ≤ s.inputGain := by
  induction raws with
  | nil => intro s _ s' hs'; simp [agcBlockStates] at hs'
  | cons r rs ih =>
    intro s hm s' hs'
    simp only [agcBlockStates, List.mem_cons] at hs'
    rcases hs' with rfl | hs'
    · exact agcSampleStep_gain_le r s hm
    · exact le_trans
        (ih (agcSampleStep r s) (agcSampleStep_max_nonneg r s hm) s' hs')
        (agcSampleStep_gain_le r s hm)

lemma organIndices_eq (c : ℕ) : organIndices c = List.range' c (320 - c) := by
  induction c using organIndices.induct with
  | case1 c h ih =>
    rw [organIndices, dif_pos h, ih]
    have h320 : 320 - c = (320 - (c + 1)) + 1 := by omega
    rw [h320, List.range'_succ]
  | case2 c h =>
    rw [organIndices, dif_neg h]
    have h320 : 320 - c = 0 := by omega
    rw [h320, List.range']

lemma makeValidR_mem (v : ℝ) : 0 ≤ makeValidR v ∧ makeValidR v ≤ 4095 := by
  simp only [makeValidR]
  split_ifs <;> constructor <;> linarith

lemma makeValidR_mono {a b : ℝ} (h : a ≤ b) : makeValidR a ≤ makeValidR b := by
  simp only [makeValidR]
  split_ifs <;> linarith

lemma quantize8_mem {q : ℝ} (h0 : 0 ≤ q) (h1 : q ≤ 4095) :
    0 ≤ quantize8 q ∧ quantize8 q ≤ 247 := by
  unfold quantize8
  constructor
  · have h2 : round (0 : ℝ) ≤ round (q / 16.6) := round_mono' (by positivity)
    simpa using h2
  · have h2 : round (q / 16.6) ≤ round ((4095 : ℝ) / 16.6) :=
      round_mono' ((div_le_div_iff_of_pos_right (by norm_num)).mpr h1)
    have h3 : round ((4095 : ℝ) / 16.6) = 247 := round_eq_of (by norm_num) (by norm_num)
    omega

lemma dbMap_le_255 {b : ℝ} (hb0 : 0 < b) (hb1 : b ≤ 4095) : dbMap b ≤ 255 := by
  unfold dbMap
  have hlog : Real.logb 10 (b / 4095) ≤ 0 :=
    Real.logb_nonpos (by norm_num) (by positivity) (by rw [div_le_one (by norm_num)]; linarith)
  nlinarith [hlog]

lemma dbMap_mono {a b : ℝ} (ha : 0 < a) (hab : a ≤ b) : dbMap a ≤ dbMap b := by
  unfold dbMap
  have hlog : Real.logb 10 (a / 4095) ≤ Real.logb 10 (b / 4095) :=
    Real.logb_le_logb_of_le (by norm_num) (by positivity) (by linarith)
  nlinarith [hlog]

lemma makeValid_mem (v : ℚ) : 0 ≤ makeValid v ∧ makeValid v ≤ 4095 := by
  simp only [makeValid]
  split_ifs <;> constructor <;> linarith

lemma roundQ_mem {c : ℚ} (h0 : 0 ≤ c) (h1 : c ≤ 4095) :
    0 ≤ round (c / 16.6) ∧ round (c / 16.6) ≤ 247 := by
  constructor
  · have h2 : round (0 : ℚ) ≤ round (c / 16.6) := round_mono' (by positivity)
    simpa using h2
  · have h2 : round (c / 16.6) ≤ round ((4095 : ℚ) / 16.6) :=
      round_mono' ((div_le_div_iff_of_pos_right (by norm_num)).mpr h1)
    have h3 : round ((4095 : ℚ) / 16.6) = 247 := round_eq_of (by norm_num) (by norm_num)
    omega

lemma showBufferPixel_le {p : ℚ × ℚ × ℚ}
    (h1 : 0 ≤ p.1) (h2 : p.1 ≤ 4095) (h3 : 0 ≤ p.2.1) (h4 : p.2.1 ≤ 4095)
    (h5 : 0 ≤ p.2.2) (h6 : p.2.2 ≤ 4095) :
    (showBufferPixel p).1 ≤ 247 ∧ (showBufferPixel p).2.1 ≤ 247 ∧
    (showBufferPixel p).2.2 ≤ 247 := by
  have hr := roundQ_mem h1 h2
  have hg := roundQ_mem h3 h4
  have hb := roundQ_mem h5 h6
  simp only [showBufferPixel]
  split_ifs with hc
  · refine ⟨hr.2, hg.2, ?_⟩
    show round (p.2.2 / 16.6) + 1 ≤ 247
    omega
  · exact ⟨hr.2, hg.2, hb.2⟩

lemma satBrightPixel_mem (sat br : ℚ) (rgb : ℚ × ℚ × ℚ) :
    (0 ≤ (satBrightPixel sat br rgb).1 ∧ (satBrightPixel sat br rgb).1 ≤ 4095) ∧
    (0 ≤ (satBrightPixel sat br rgb).2.1 ∧ (satBrightPixel sat br rgb).2.1 ≤ 4095) ∧
    (0 ≤ (satBrightPixel sat br rgb).2.2 ∧ (satBrightPixel sat br rgb).2.2 ≤ 4095) :=
  ⟨makeValid_mem _, makeValid_mem _, makeValid_mem _⟩

lemma createRainbowAux_mem (sat br : ℚ) :
    ∀ (n : ℕ) (h : ℚ) (p : ℚ × ℚ × ℚ), p ∈ createRainbowAux sat br n h →
      ∃ rgb, p = satBrightPixel sat br rgb := by
  intro n
  induction n with
  | zero => intro h p hp; simp [createRainbowAux] at hp
  | succ m ih =>
    intro h p hp
    simp only [createRainbowAux, List.mem_cons] at hp
    rcases hp with rfl | hp
    · exact ⟨_, rfl⟩
    · exact ih _ p hp

lemma showBuffer_of_satBright (sat br : ℚ) (buf : List (ℚ × ℚ × ℚ))
    (hbuf : ∀ p ∈ buf, ∃ rgb, p = satBrightPixel sat br rgb) :
    ∀ pix ∈ showBuffer buf, pix.1 ≤ 247 ∧ pix.2.1 ≤ 247 ∧ pix.2.2 ≤ 247 := by
  intro pix hpix
  simp only [showBuffer, List.mem_map] at hpix
  obtain ⟨p, hp, rfl⟩ := hpix
  obtain ⟨rgb, rfl⟩ := hbuf p hp
  have hm := satBrightPixel_mem sat br rgb
  exact showBufferPixel_le hm.1.1 hm.1.2 hm.2.1.1 hm.2.1.2 hm.2.2.1 hm.2.2.2

/-! ## Claim theorems -/

/-- Claim C1 (confirmed): over any color-organ block (the running peak
`sampleMax` starts at 0, line 1066, with any nonnegative gain), at every
sample the product `inputGain * sampleMax` stays at or below
`MAX_ANALOG / 2`, every applied sample `audioSample = rawSample * inputGain`
stays at or below that ceiling in magnitude, and whenever a new block peak
would push the product above the ceiling the gain is reduced within that
same sample to exactly `MAX_ANALOG / 2` divided by the peak. -/
theorem agc_gain_peak_ceiling (raws : List ℚ) (g0 : ℚ) (hg : 0 ≤ g0) :
    (∀ s' ∈ agcBlockStates raws ⟨0, g0⟩, s'.inputGain * s'.sampleMax ≤ 4095 / 2) ∧
    (∀ a ∈ agcBlockAudio raws ⟨0, g0⟩, |a| ≤ 4095 / 2) ∧
    (∀ (raw : ℚ) (s : AGCState), 0 ≤ s.sampleMax → |raw| > s.sampleMax →
      s.inputGain * |raw| > 4095 / 2 →
      (agcSampleStep raw s).inputGain = 4095 / 2 / |raw|) := by
  have hinv : agcInv ⟨0, g0⟩ := ⟨le_refl 0, hg, by norm_num⟩
  refine ⟨fun s' hs' => (agcBlockStates_inv raws _ hinv s' hs').2.2,
    agcBlockAudio_le raws _ hinv, fun raw s hm h1 h2 => ?_⟩
  simp [agcSampleStep, h1, h2]

/-- Witness for C1: a concrete overshooting first sample with gain 2 is
corrected to exactly `(4095/2) / |3000|` within the same sample. -/
theorem agc_gain_peak_ceiling_witness :
    (agcSampleStep 3000 ⟨0, 2⟩).inputGain = 4095 / 2 / |(3000 : ℚ)| := by
  have h := agc_gain_peak_ceiling [3000] 2 (by norm_num)
  exact h.2.2 3000 ⟨0, 2⟩ (le_refl 0) (by norm_num) (by rw [abs_of_nonneg] <;> norm_num)

/-- Claim C4 (confirmed): within a block the AGC gain never increases (every
state reached from a block's sample steps has gain at most the starting
gain, and a sample that is not an overshoot leaves the gain unchanged),
while the single between-block recovery step never decreases it. -/
theorem agc_gain_monotonicity :
    (∀ (raws : List ℚ) (g0 m0 : ℚ), 0 ≤ m0 →
      ∀ s' ∈ agcBlockStates raws ⟨m0, g0⟩, s'.inputGain ≤ g0) ∧
    (∀ (raw : ℚ) (s : AGCState),
      ¬(|raw| > s.sampleMax ∧ s.inputGain * |raw| > 4095 / 2) →
      (agcSampleStep raw s).inputGain = s.inputGain) ∧
    (∀ g : ℝ, g ≤ agcRecover g) := by
  refine ⟨fun raws g0 m0 hm s' hs' => agcBlockStates_gain_le raws ⟨m0, g0⟩ hm s' hs',
    fun raw s h => ?_, fun g => ?_⟩
  · unfold agcSampleStep
    by_cases h1 : |raw| > s.sampleMax
    · have h2 : ¬(s.inputGain * |raw| > 4095 / 2) := fun hc => h ⟨h1, hc⟩
      simp [h1, h2]
    · simp [h1]
  · unfold agcRecover
    by_cases h : g < AGCboost
    · rw [if_pos h]
      have ha : AGCalpha = 0.032 := by norm_num [AGCalpha]
      rw [ha]
      nlinarith [h]
    · rw [if_neg h]

/-- Witness for C4: the one-sample block `[1]` starting at gain 3 keeps the
gain at or below 3; a non-overshoot sample leaves gain 1 unchanged; and the
recovery step does not decrease a gain of 1. -/
theorem agc_gain_monotonicity_witness :
    (agcSampleStep 1 ⟨0, 3⟩).inputGain ≤ 3 ∧
    (agcSampleStep 1 ⟨5, 1⟩).inputGain = 1 ∧
    (1 : ℝ) ≤ agcRecover 1 := by
  have h := agc_gain_monotonicity
  refine ⟨h.1 [1] 3 0 (le_refl 0) (agcSampleStep 1 ⟨0, 3⟩) (by simp [agcBlockStates]),
    h.2.1 1 ⟨5, 1⟩ ?_, h.2.2 1⟩
  intro hc
  have h5 : |(1 : ℚ)| > 5 := hc.1
  rw [abs_one] at h5
  linarith

/-- Counterexample for C5: `MakeHueValid (3/2)` returns `0`, which is not
congruent to `3/2` modulo the unit hue cycle (their difference `3/2` is not
an integer), and is not the nearest-endpoint clamp `1` either. -/
theorem makeHueValid_not_modular :
    MakeHueValid (3 / 2) = 0 ∧
    ¬(∃ k : ℤ, (3 / 2 : ℚ) - MakeHueValid (3 / 2) = (k : ℚ)) ∧
    MakeHueValid (3 / 2) ≠ 1 := by
  have h : MakeHueValid (3 / 2 : ℚ) = 0 := by norm_num [MakeHueValid]
  refine ⟨h, ?_, by rw [h]; norm_num⟩
  rintro ⟨k, hk⟩
  rw [h, sub_zero] at hk
  have h2 : (3 : ℚ) = 2 * (k : ℚ) := by rw [← hk]; ring
  have h3 : (3 : ℤ) = 2 * k := by exact_mod_cast h2
  omega

/-- Claim C5 (amended): for input above 1, `MakeHueValid` returns 0, and for
input below 0 it returns 1 — a snap to the opposite endpoint of the hue
cycle (wrap-around for the program's small nudge steps), not a clamp to the
nearest endpoint and not an exact reduction modulo 1; in-range inputs are
returned unchanged and the result always lies in `[0, 1]`. -/
theorem makeHueValid_opposite_endpoint (v : ℚ) :
    (v > 1 → MakeHueValid v = 0) ∧
    (v < 0 → MakeHueValid v = 1) ∧
    (0 ≤ v → v ≤ 1 → MakeHueValid v = v) ∧
    0 ≤ MakeHueValid v ∧ MakeHueValid v ≤ 1 := by
  simp only [MakeHueValid]
  split_ifs <;> refine ⟨?_, ?_, ?_, ?_, ?_⟩ <;> intros <;> first | rfl | linarith

/-- Witness for C5: the out-of-range input 2 snaps to the opposite
endpoint 0. -/
theorem makeHueValid_opposite_endpoint_witness : MakeHueValid 2 = 0 :=
  (makeHueValid_opposite_endpoint 2).1 (by norm_num)

/-- Claim C10 (confirmed): the color-organ sampling loop
`while (sampleCount++ < SAMPLE_SIZE)` performs exactly `SAMPLE_SIZE = 320`
iterations, and the Hann-window index `sampleCount - 1` it reads on each
iteration is within the bounds `[0, 319]` of `hanningWindow`. -/
theorem sampling_loop_window_indices :
    (organIndices 0).length = 320 ∧ ∀ i ∈ organIndices 0, i < 320 := by
  rw [organIndices_eq, Nat.sub_zero, ← List.range_eq_range']
  exact ⟨List.length_range 320, fun i hi => List.mem_range.mp hi⟩

/-- Counterexample for C2: with quiet component 4095 (quantized 247), the red
channel's rendered brightness is NOT monotone in the peak: peak `8.19` maps
below the floor and is substituted with 247, while the larger peak `81.9`
maps to 51 — the output decreases as the peak grows. -/
theorem brightness_mapper_not_monotone :
    (819 / 100 : ℝ) < 819 / 10 ∧
    organChannel (makeValidR (5 * (819 / 10))) 4095 <
      organChannel (makeValidR (5 * (819 / 100))) 4095 := by
  have hbig : organChannel (makeValidR (5 * (819 / 10))) 4095 = 51 := by
    have hmv : makeValidR (5 * (819 / 10)) = 409.5 := by
      simp only [makeValidR]
      norm_num
    have hdb : dbMap 409.5 = 51 := by
      unfold dbMap
      rw [show (409.5 : ℝ) / 4095 = (10 : ℝ)⁻¹ by norm_num, Real.logb_inv,
        Real.logb_self_eq_one (by norm_num)]
      norm_num
    rw [hmv]
    unfold organChannel
    rw [if_neg (by rw [hdb]; norm_num)]
    exact hdb
  have hsmall : organChannel (makeValidR (5 * (819 / 100))) 4095 = 247 := by
    have hmv : makeValidR (5 * (819 / 100)) = 40.95 := by
      simp only [makeValidR]
      norm_num
    have hdb : dbMap 40.95 = -153 := by
      unfold dbMap
      rw [show (40.95 : ℝ) / 4095 = ((10 : ℝ) ^ (2 : ℕ))⁻¹ by norm_num, Real.logb_inv,
        Real.logb_pow, Real.logb_self_eq_one (by norm_num)]
      norm_num
    have hq : quantize8 (4095 : ℝ) = 247 := by
      unfold quantize8
      exact round_eq_of (by norm_num) (by norm_num)
    rw [hmv]
    unfold organChannel
    rw [if_pos (Or.inr (by rw [hdb]; norm_num)), hq]
    norm_num
  rw [hbig, hsmall]
  norm_num

/-- Claim C2 (amended): for any nonnegative per-channel gain and quiet
component in `[0, 4095]`, the mapper's per-channel output (gain, clamp, dB
formula, quiet substitution) always lies in `[0, 255]`; it is monotonically
non-decreasing in the peak on the peaks at or above the dynamic-range
floor (those not hit by the quiet-color substitution), though the
substitution itself can invert monotonicity across the floor when the quiet
component is bright. -/
theorem brightness_mapper_range_mono (gain q : ℝ)
    (hg : 0 ≤ gain) (hq0 : 0 ≤ q) (hq1 : q ≤ 4095) :
    (∀ p : ℝ, 0 ≤ organChannel (makeValidR (gain * p)) q ∧
      organChannel (makeValidR (gain * p)) q ≤ 255) ∧
    (∀ p1 p2 : ℝ, p1 ≤ p2 →
      ¬(makeValidR (gain * p1) = 0 ∨ dbMap (makeValidR (gain * p1)) < 0) →
      organChannel (makeValidR (gain * p1)) q ≤ organChannel (makeValidR (gain * p2)) q) := by
  constructor
  · intro p
    unfold organChannel
    split_ifs with hc
    · have hq := quantize8_mem hq0 hq1
      constructor
      · exact_mod_cast hq.1
      · have h2 : ((quantize8 q : ℤ) : ℝ) ≤ 247 := by exact_mod_cast hq.2
        linarith
    · push_neg at hc
      obtain ⟨hne, hnn⟩ := hc
      have hmem := makeValidR_mem (gain * p)
      have hpos : 0 < makeValidR (gain * p) := lt_of_le_of_ne hmem.1 (Ne.symm hne)
      exact ⟨le_of_not_lt (by simpa using hnn), dbMap_le_255 hpos hmem.2⟩
  · intro p1 p2 hle hns
    push_neg at hns
    obtain ⟨hne1, hnn1⟩ := hns
    have hmem1 := makeValidR_mem (gain * p1)
    have hpos1 : 0 < makeValidR (gain * p1) := lt_of_le_of_ne hmem1.1 (Ne.symm hne1)
    have hble : makeValidR (gain * p1) ≤ makeValidR (gain * p2) :=
      makeValidR_mono (mul_le_mul_of_nonneg_left hle hg)
    have hpos2 : 0 < makeValidR (gain * p2) := lt_of_lt_of_le hpos1 hble
    have hdb : dbMap (makeValidR (gain * p1)) ≤ dbMap (makeValidR (gain * p2)) :=
      dbMap_mono hpos1 hble
    unfold organChannel
    rw [if_neg (by push_neg; exact ⟨hne1, hnn1⟩),
      if_neg (by push_neg; exact ⟨ne_of_gt hpos2, by linarith⟩)]
    exact hdb

/-- Witness for C2 (amended): with red gain 5 and a dark quiet color, the
peak 819 (which saturates the clamp) has output in `[0, 255]` and the
mapper is monotone from it to the larger peak 1000. -/
theorem brightness_mapper_range_mono_witness :
    0 ≤ organChannel (makeValidR (5 * 819)) 0 ∧
    organChannel (makeValidR (5 * 819)) 0 ≤ 255 ∧
    organChannel (makeValidR (5 * 819)) 0 ≤ organChannel (makeValidR (5 * 1000)) 0 := by
  have h := brightness_mapper_range_mono 5 0 (by norm_num) (le_refl 0) (by norm_num)
  have hmv : makeValidR (5 * (819 : ℝ)) = 4095 := by
    simp only [makeValidR]
    norm_num
  have hdb : dbMap 4095 = 255 := by
    unfold dbMap
    norm_num
  refine ⟨(h.1 819).1, (h.1 819).2, h.2 819 1000 (by norm_num) ?_⟩
  rw [hmv, hdb]
  push_neg
  norm_num

/-- Counterexample for C3: with all three peaks 0 (every channel below the
dynamic-range floor) and all three quiet components 200 (quantized to 12),
the rendered blue channel is 13, not the quantized quiet component 12 — the
anti-flicker rule bumps it. -/
theorem quiet_substitution_counterexample :
    (makeValidR (5 * (0 : ℝ)) = 0 ∨ dbMap (makeValidR (5 * (0 : ℝ))) < 0) ∧
    ((quantize8 (200 : ℝ) : ℤ) : ℝ) = 12 ∧
    (organRender 0 0 0 200 200 200).2.2 ≠ ((quantize8 (200 : ℝ) : ℤ) : ℝ) := by
  have hq : quantize8 (200 : ℝ) = 12 := by
    unfold quantize8
    exact round_eq_of (by norm_num) (by norm_num)
  have hmv0 : makeValidR (0 : ℝ) = 0 := by
    simp only [makeValidR]
    norm_num
  have hmv : makeValidR (5 * (0 : ℝ)) = 0 := by
    rw [show (5 : ℝ) * 0 = 0 by ring]
    exact hmv0
  have hch : organChannel (0 : ℝ) 200 = 12 := by
    unfold organChannel
    rw [if_pos (Or.inl rfl), hq]
    norm_num
  have hout : (organRender 0 0 0 200 200 200).2.2 = 13 := by
    unfold organRender
    rw [show (5 : ℝ) * 0 = 0 by ring, show (7 : ℝ) * 0 = 0 by ring, hmv0, hch]
    rw [if_pos (by norm_num)]
    norm_num
  refine ⟨Or.inl hmv, by rw [hq]; norm_num, ?_⟩
  rw [hout, hq]
  norm_num

/-- Claim C3 (amended): each below-floor channel renders the quantized
QuietColor component for that channel — except that when the anti-flicker
rule fires (all three channel values equal, nonzero and below 23) the blue
channel is one quantum higher; channels at or above the floor are untouched
by the substitution and render the dB-mapped value (blue again up to the
anti-flicker bump). -/
theorem quiet_substitution_amended (pR pG pB qR qG qB : ℝ) :
    (organRender pR pG pB qR qG qB).1 = organChannel (makeValidR (5 * pR)) qR ∧
    (organRender pR pG pB qR qG qB).2.1 = organChannel (makeValidR (7 * pG)) qG ∧
    ((organChannel (makeValidR (5 * pR)) qR = organChannel (makeValidR (7 * pG)) qG ∧
      organChannel (makeValidR (7 * pG)) qG = organChannel (makeValidR (5 * pB)) qB ∧
      organChannel (makeValidR (5 * pB)) qB < 23 ∧
      organChannel (makeValidR (5 * pB)) qB ≠ 0) →
      (organRender pR pG pB qR qG qB).2.2 = organChannel (makeValidR (5 * pB)) qB + 1) ∧
    (¬(organChannel (makeValidR (5 * pR)) qR = organChannel (makeValidR (7 * pG)) qG ∧
      organChannel (makeValidR (7 * pG)) qG = organChannel (makeValidR (5 * pB)) qB ∧
      organChannel (makeValidR (5 * pB)) qB < 23 ∧
      organChannel (makeValidR (5 * pB)) qB ≠ 0) →
      (organRender pR pG pB qR qG qB).2.2 = organChannel (makeValidR (5 * pB)) qB) ∧
    ((makeValidR (5 * pR) = 0 ∨ dbMap (makeValidR (5 * pR)) < 0) →
      organChannel (makeValidR (5 * pR)) qR = ((quantize8 qR : ℤ) : ℝ)) ∧
    (¬(makeValidR (5 * pR) = 0 ∨ dbMap (makeValidR (5 * pR)) < 0) →
      organChannel (makeValidR (5 * pR)) qR = dbMap (makeValidR (5 * pR))) ∧
    ((makeValidR (7 * pG) = 0 ∨ dbMap (makeValidR (7 * pG)) < 0) →
      organChannel (makeValidR (7 * pG)) qG = ((quantize8 qG : ℤ) : ℝ)) ∧
    (¬(makeValidR (7 * pG) = 0 ∨ dbMap (makeValidR (7 * pG)) < 0) →
      organChannel (makeValidR (7 * pG)) qG = dbMap (makeValidR (7 * pG))) ∧
    ((makeValidR (5 * pB) = 0 ∨ dbMap (makeValidR (5 * pB)) < 0) →
      organChannel (makeValidR (5 * pB)) qB = ((quantize8 qB : ℤ) : ℝ)) ∧
    (¬(makeValidR (5 * pB) = 0 ∨ dbMap (makeValidR (5 * pB)) < 0) →
      organChannel (makeValidR (5 * pB)) qB = dbMap (makeValidR (5 * pB))) := by
  refine ⟨?_, ?_, fun hb => ?_, fun hb => ?_, fun hs => ?_, fun hs => ?_,
    fun hs => ?_, fun hs => ?_, fun hs => ?_, fun hs => ?_⟩
  · simp only [organRender]
    split_ifs <;> rfl
  · simp only [organRender]
    split_ifs <;> rfl
  · simp only [organRender]
    rw [if_pos hb]
  · simp only [organRender]
    rw [if_neg hb]
  · unfold organChannel
    rw [if_pos hs]
  · unfold organChannel
    rw [if_neg hs]
  · unfold organChannel
    rw [if_pos hs]
  · unfold organChannel
    rw [if_neg hs]
  · unfold organChannel
    rw [if_pos hs]
  · unfold organChannel
    rw [if_neg hs]

/-- Witness for C3 (amended): with all peaks and quiet components 0 the blue
channel is below the floor, the anti-flicker condition fails (the value is
zero), and the rendered blue equals the quantized quiet component 0. -/
theorem quiet_substitution_amended_witness :
    (organRender 0 0 0 0 0 0).2.2 = ((quantize8 (0 : ℝ) : ℤ) : ℝ) := by
  have h := quiet_substitution_amended 0 0 0 0 0 0
  have hmv : makeValidR (5 * (0 : ℝ)) = 0 := by
    simp only [makeValidR]
    norm_num
  have hq : quantize8 (0 : ℝ) = 0 := by
    unfold quantize8
    exact round_eq_of (by norm_num) (by norm_num)
  have hch : organChannel (makeValidR (5 * (0 : ℝ))) 0 = 0 := by
    rw [h.2.2.2.2.2.2.2.2.1 (Or.inl hmv), hq]
    norm_num
  have hnb : ¬(organChannel (makeValidR (5 * (0 : ℝ))) 0 = organChannel (makeValidR (7 * (0 : ℝ))) 0 ∧
      organChannel (makeValidR (7 * (0 : ℝ))) 0 = organChannel (makeValidR (5 * (0 : ℝ))) 0 ∧
      organChannel (makeValidR (5 * (0 : ℝ))) 0 < 23 ∧
      organChannel (makeValidR (5 * (0 : ℝ))) 0 ≠ 0) := fun hc => hc.2.2.2 hch
  rw [h.2.2.2.1 hnb, hch, hq]
  norm_num

/-- Counterexample for C6: in SolidColor with a 32 ms animation period,
pressing the SolidColor key sets the period to 64 ms — the code doubles the
period, it does not halve it to 16 ms as the claim states. -/
theorem solidColor_key_counterexample :
    c6State.mode = Mode.SolidColor ∧ c6State.slowAnimationTime = 32 ∧
    (keyPress Key.solidColor c6State).slowAnimationTime = 64 ∧
    (keyPress Key.solidColor c6State).slowAnimationTime ≠ c6State.slowAnimationTime / 2 := by
  have h : (keyPress Key.solidColor c6State).slowAnimationTime = 64 := by
    simp [keyPress, dispatch, refresh, c6State, baseState]
  refine ⟨rfl, rfl, h, ?_⟩
  rw [h]
  simp [c6State, baseState]

/-- Claim C6 (amended): pressing the SolidColor key while already in
SolidColor with a static animation starts the animation at the minimum
period 16 ms; each further press doubles the period (halving the animation
speed) while the doubled period stays within the 4096 ms cap; once doubling
would pass the cap the period is set to exactly 4096 ms with the feedback
blink, idempotently; the mode stays SolidColor throughout. -/
theorem solidColor_key_period (s : SysState) (hOn : s.onOff = true)
    (hm : s.mode = Mode.SolidColor) :
    (s.slowAnimationTime = 0 →
      (keyPress Key.solidColor s).slowAnimationTime = 16 ∧
      (keyPress Key.solidColor s).blinked = false) ∧
    (s.slowAnimationTime ≠ 0 → s.slowAnimationTime * 2 ≤ 4096 →
      (keyPress Key.solidColor s).slowAnimationTime = s.slowAnimationTime * 2 ∧
      (keyPress Key.solidColor s).blinked = false) ∧
    (s.slowAnimationTime ≠ 0 → s.slowAnimationTime * 2 > 4096 →
      (keyPress Key.solidColor s).slowAnimationTime = 4096 ∧
      (keyPress Key.solidColor s).blinked = true) ∧
    (keyPress Key.solidColor s).mode = Mode.SolidColor := by
  refine ⟨fun h0 => ?_, fun h0 hle => ?_, fun h0 hgt => ?_, ?_⟩
  · simp [keyPress, dispatch, refresh, hOn, hm, h0]
  · simp [keyPress, dispatch, refresh, hOn, hm, h0, not_lt.mpr hle, BlinkS]
  · simp [keyPress, dispatch, refresh, hOn, hm, h0, hgt, BlinkS]
  · by_cases h0 : s.slowAnimationTime = 0
    · simp [keyPress, dispatch, refresh, hOn, hm, h0]
    · by_cases hgt : s.slowAnimationTime * 2 > 4096 <;>
        simp [keyPress, dispatch, refresh, hOn, hm, h0, hgt, BlinkS]

/-- Witness for C6 (amended): at the 4096 ms cap a further SolidColor press
leaves the period at exactly 4096 ms and raises the feedback blink. -/
theorem solidColor_key_period_witness :
    (keyPress Key.solidColor capState).slowAnimationTime = 4096 ∧
    (keyPress Key.solidColor capState).blinked = true := by
  have h := solidColor_key_period capState rfl rfl
  exact h.2.2.1 (by decide) (by decide)

/-- Claim C7 (code bug): pressing the resaturate key (NEC `0xb04f`) while in
QuietColor mode edits the saturation (here from 0 to `SATURATION_LIMIT =
0.45`) but leaves the quiet-color snapshot stale — the handler omits the
`UpdateQuietColor()` call that every other HSB edit (here: desaturate,
which keeps `quietSaturation` equal to the new saturation) performs. -/
theorem resaturate_skips_quiet_update :
    c7State.mode = Mode.QuietColor ∧
    (keyPress Key.resaturate c7State).saturation = 0.45 ∧
    (keyPress Key.resaturate c7State).quietSaturation = 0 ∧
    (keyPress Key.resaturate c7State).quietSaturation ≠
      (keyPress Key.resaturate c7State).saturation ∧
    (keyPress Key.desaturate { c7State with saturation := 1 / 2 }).quietSaturation =
      (keyPress Key.desaturate { c7State with saturation := 1 / 2 }).saturation := by
  have hs : (keyPress Key.resaturate c7State).saturation = 0.45 := by
    simp [keyPress, dispatch, refresh, c7State, baseState]
    norm_num
  have hq : (keyPress Key.resaturate c7State).quietSaturation = 0 := by
    simp [keyPress, dispatch, refresh, c7State, baseState]
    norm_num
  refine ⟨rfl, hs, hq, by rw [hs, hq]; norm_num, ?_⟩
  simp [keyPress, dispatch, refresh, UpdateQuietColor, BlinkS, c7State, baseState]
  norm_num

/-- Claim C8 (confirmed): from any ON state, toggling power OFF then ON with
no intervening key events restores the mode, hue, saturation, brightness,
animation period, sparkle settings and quiet-color snapshot exactly; the
OFF press blanks the display; while OFF, every key other than power leaves
the state (display included) untouched, and the post-key part of `loop()`
(color-organ audio processing, sparkle, and slow animations) does nothing. -/
theorem off_on_roundtrip (s : SysState) (hOn : s.onOff = true) :
    modeVars (keyPress Key.power (keyPress Key.power s)) = modeVars s ∧
    (keyPress Key.power s).onOff = false ∧
    (keyPress Key.power s).frame = blankFrame ∧
    (∀ k : Key, k ≠ Key.power → keyPress k (keyPress Key.power s) = keyPress Key.power s) ∧
    (∀ fe se : Bool, ∀ organFrame : List (ℤ × ℤ × ℤ),
      loopTail fe se organFrame (keyPress Key.power s) = keyPress Key.power s) := by
  refine ⟨?_, ?_, ?_, ?_, ?_⟩
  · cases hm : s.mode <;> simp [keyPress, refresh, modeVars, hOn, hm]
  · simp [keyPress, hOn]
  · simp [keyPress, hOn]
  · intro k hk
    simp [keyPress, hOn, hk]
  · intro fe se organFrame
    simp [keyPress, loopTail, hOn]

/-- Witness for C8: the OFF/ON pair on the post-setup state restores all
tracked mode state. -/
theorem off_on_roundtrip_witness :
    modeVars (keyPress Key.power (keyPress Key.power baseState)) = modeVars baseState :=
  (off_on_roundtrip baseState rfl).1

/-- Claim C9 (confirmed): every 8-bit channel value `ShowBuffer` writes from
a buffer whose components lie in `[0, MAX_ANALOG]` is at most 247 (because
`round(4095/16.6) = 247`), and the SolidColor, Rainbow and RandomColors
effects only ever put `makeValid`-clamped components in the buffer, so none
of them can command the full 8-bit brightness 255 on any channel. -/
theorem showBuffer_channels_le_247 :
    (∀ p : ℚ × ℚ × ℚ, 0 ≤ p.1 → p.1 ≤ 4095 → 0 ≤ p.2.1 → p.2.1 ≤ 4095 →
      0 ≤ p.2.2 → p.2.2 ≤ 4095 →
      (showBufferPixel p).1 ≤ 247 ∧ (showBufferPixel p).2.1 ≤ 247 ∧
      (showBufferPixel p).2.2 ≤ 247) ∧
    (∀ hue sat br : ℚ, ∀ pix ∈ showBuffer (createSolidColor hue sat br),
      pix.1 ≤ 247 ∧ pix.2.1 ≤ 247 ∧ pix.2.2 ≤ 247) ∧
    (∀ hue sat br : ℚ, ∀ pix ∈ showBuffer (createRainbow hue sat br),
      pix.1 ≤ 247 ∧ pix.2.1 ≤ 247 ∧ pix.2.2 ≤ 247) ∧
    (∀ sat br : ℚ, ∀ draws : List ℚ, ∀ pix ∈ showBuffer (createRandom sat br draws),
      pix.1 ≤ 247 ∧ pix.2.1 ≤ 247 ∧ pix.2.2 ≤ 247) := by
  refine ⟨fun p h1 h2 h3 h4 h5 h6 => showBufferPixel_le h1 h2 h3 h4 h5 h6,
    fun hue sat br => showBuffer_of_satBright sat br _ ?_,
    fun hue sat br => showBuffer_of_satBright sat br _ ?_,
    fun sat br draws => showBuffer_of_satBright sat br _ ?_⟩
  · intro p hp
    exact ⟨Hue hue, List.eq_of_mem_replicate hp⟩
  · intro p hp
    exact createRainbowAux_mem sat br TOTAL_LEDS hue p hp
  · intro p hp
    simp only [createRandom, List.mem_map] at hp
    obtain ⟨r, _, rfl⟩ := hp
    exact ⟨Hue (r / 10000), rfl⟩

/-- Witness for C9: the SolidColor frame for hue 0 at full saturation and
brightness contains its own quantized pixel, whose channels stay at or
below 247. -/
theorem showBuffer_channels_le_247_witness :
    (showBufferPixel (satBrightPixel 1 1 (Hue 0))).1 ≤ 247 ∧
    (showBufferPixel (satBrightPixel 1 1 (Hue 0))).2.1 ≤ 247 ∧
    (showBufferPixel (satBrightPixel 1 1 (Hue 0))).2.2 ≤ 247 := by
  have hmem : showBufferPixel (satBrightPixel 1 1 (Hue 0)) ∈
      showBuffer (createSolidColor 0 1 1) := by
    simp only [showBuffer, createSolidColor, List.map_replicate]
    exact List.mem_replicate.mpr ⟨by norm_num [TOTAL_LEDS], rfl⟩
  exact showBuffer_channels_le_247.2.1 0 1 1 _ hmem

/-- Witness for C10: the loop runs 320 iterations and its first window
index 0 is within bounds. -/
theorem sampling_loop_window_indices_witness :
    (organIndices 0).length = 320 ∧ (0 : ℕ) < 320 := by
  have h := sampling_loop_window_indices
  refine ⟨h.1, h.2 0 ?_⟩
  rw [organIndices_eq, Nat.sub_zero, ← List.range_eq_range']
  exact List.mem_range.mpr (by norm_num)
